import Mathlib

/-!
# Verification of the GmailParser rule engine

Shallow embedding of `gmail_parser/rule_engine.py` (together with the
constant tables it imports from `gmail_parser/config.py`) and proofs about
its rule-loading, validation and evaluation behaviour.

Modelling conventions:
* JSON values (the shape of rules, conditions, actions and email records
  after `json.load` / the sqlite row dictionaries) are modelled by the
  inductive type `JVal`.  JSON numbers are modelled as integers; none of
  the verified properties involve floating-point values.
* Python dictionaries are association lists with string keys.  Keys of a
  dictionary produced by `json.load` are unique, so lookup order is
  irrelevant for faithful inputs.
* Python string operations are modelled over Lean strings; `str.lower`
  is ASCII case folding (`String.toLower`), matching CPython on the basic
  latin range used throughout the repository.
* `datetime` values are modelled as integers counting seconds;
  `timedelta(days = n)` is `n * 86400`.  The external `dateutil` parser
  is abstracted as an oracle `parseDate : String → Option Int` (`none`
  models a parse failure, i.e. `dateutil.parser.parse` raising).
* Python exceptions caught by the `try/except` blocks of the source are
  modelled by the corresponding `false` / empty results; the comments on
  each definition record which exception path each branch models.
-/

/-- A JSON value, the dynamic data the rule engine manipulates. -/
inductive JVal : Type where
  | null : JVal
  | bool : Bool → JVal
  | num : Int → JVal
  | str : String → JVal
  | arr : List JVal → JVal
  | obj : List (String × JVal) → JVal

/-- Python `d[k]` / `d.get(k)` on a dictionary.  On a non-dictionary the
source's subscripting raises (`TypeError`), which every caller catches and
turns into `False`; `none` models both the missing key and that path. -/
def jGet (v : JVal) (k : String) : Option JVal :=
  match v with
  | .obj kvs => kvs.lookup k
  | _ => none

/-- Python `k in d` for a dictionary.  Non-dictionary candidates either
raise in the membership test or at the subsequent subscripting; both paths
are caught and give `False`, so `false` here is faithful. -/
def hasKey (v : JVal) (k : String) : Bool :=
  (jGet v k).isSome

/-- Table `FIELD_MAPPING` from `config.py`: rule field name → email record key. -/
def FIELD_MAPPING : List (String × String) :=
  [("From", "from_address"),
   ("To", "to_address"),
   ("Subject", "subject"),
   ("Message", "message"),
   ("Received", "received_date")]

/-- Table `STRING_PREDICATES` from `config.py`. -/
def STRING_PREDICATES : List String :=
  ["Contains", "Does not Contain", "Equals", "Does not equal"]

/-- Table `DATE_PREDICATES` from `config.py`. -/
def DATE_PREDICATES : List String :=
  ["Less than", "Greater than"]

/-- Table `ACTIONS` from `config.py`. -/
def ACTIONS : List String :=
  ["mark_unread", "mark_read", "move_message"]

mutual
/-- Python `repr` of a JSON value (escape sequences inside string reprs
are not modelled; no verified property evaluates them). -/
def pyRepr : JVal → String
  | .null => "None"
  | .bool true => "True"
  | .bool false => "False"
  | .num n => toString n
  | .str s => "\x27" ++ s ++ "\x27"
  | .arr xs => "[" ++ pyReprList xs ++ "]"
  | .obj kvs => "\x7b" ++ pyReprObj kvs ++ "\x7d"

/-- Python `repr` of the comma-separated elements of a Python list. -/
def pyReprList : List JVal → String
  | [] => ""
  | [x] => pyRepr x
  | x :: y :: xs => pyRepr x ++ ", " ++ pyReprList (y :: xs)

/-- Python `repr` of the comma-separated entries of a Python dictionary. -/
def pyReprObj : List (String × JVal) → String
  | [] => ""
  | [(k, v)] => "\x27" ++ k ++ "\x27: " ++ pyRepr v
  | (k, v) :: e :: kvs =>
    "\x27" ++ k ++ "\x27: " ++ pyRepr v ++ ", " ++ pyReprObj (e :: kvs)
end

/-- Python `str(x)`: identity on strings, `repr` otherwise. -/
def pyStr : JVal → String
  | .str s => s
  | v => pyRepr v

/-- Helper for `pySplit`: walk the characters accumulating the current
token (reversed); whitespace ends a token, empty tokens are dropped. -/
def pySplitAux : List Char → List Char → List String
  | [], acc => if acc = [] then [] else [String.mk acc.reverse]
  | c :: rest, acc =>
    if c.isWhitespace then
      if acc = [] then pySplitAux rest []
      else String.mk acc.reverse :: pySplitAux rest []
    else pySplitAux rest (c :: acc)

/-- Python `value.split()`: split on whitespace runs, dropping empty
pieces. -/
def pySplit (s : String) : List String :=
  pySplitAux s.data []

/-- Python `s.lower()`: lowercase every character (ASCII case folding,
as in the basic-latin range the repository uses). -/
def pyLower (s : String) : String :=
  String.mk (s.data.map Char.toLower)

/-- Digit run of a Python integer literal: digits with single underscores
allowed between digits (`int("1_0") = 10`, `int("1__0")` raises). -/
def pyDigits : List Char → Nat → Option Nat
  | [], acc => some acc
  | c :: rest, acc =>
    if c.isDigit then pyDigits rest (acc * 10 + (c.toNat - 48))
    else if c = '_' then
      match rest with
      | d :: _ => if d.isDigit then pyDigits rest acc else none
      | [] => none
    else none

/-- Unsigned part of Python `int(s)`: must start with a digit. -/
def pyIntCore (l : List Char) : Option Nat :=
  match l with
  | c :: _ => if c.isDigit then pyDigits l 0 else none
  | [] => none

/-- Python `int(s)` on an already-whitespace-free token (the tokens come
from `str.split`): optional sign, then digits.  `none` models the
`ValueError` the source catches.  Non-ASCII digit forms accepted by
CPython are outside the model. -/
def pyInt (s : String) : Option Int :=
  match s.data with
  | '+' :: rest => (pyIntCore rest).map Int.ofNat
  | '-' :: rest => (pyIntCore rest).map (fun n => -(n : Int))
  | l => (pyIntCore l).map Int.ofNat

/-- Python `needle in hay` on strings: substring containment. -/
def strIn (needle hay : String) : Bool :=
  decide (needle.data <:+: hay.data)

/-- Source `RuleEngine._validate_condition`.  Mirrors the code: the three keys
must be present (`KeyError`-free), the field must be a key of
`FIELD_MAPPING` (a non-string field value either misses every string key
or raises on hashing; both give `False`), and the predicate must be in
the date / string predicate list according to the field (a non-string
predicate is `==`-unequal to every listed name). -/
def validateCondition (condition : JVal) : Bool :=
  hasKey condition "field" && hasKey condition "predicate" &&
    hasKey condition "value" &&
  (match jGet condition "field" with
   | some (.str fieldName) =>
     (FIELD_MAPPING.lookup fieldName).isSome &&
     (match jGet condition "predicate" with
      | some (.str p) =>
        if fieldName = "Received" then DATE_PREDICATES.contains p
        else STRING_PREDICATES.contains p
      | _ => false)
   | _ => false)

/-- Source `RuleEngine._validate_action`.  Key `type` must be present and one of
`ACTIONS`; `mark_read` needs a boolean `value`, `move_message` a string
`value`, `mark_unread` nothing further. -/
def validateAction (action : JVal) : Bool :=
  match jGet action "type" with
  | some (.str t) =>
    ACTIONS.contains t &&
    (if t = "mark_read" then
       match jGet action "value" with
       | some (.bool _) => true
       | _ => false
     else if t = "move_message" then
       match jGet action "value" with
       | some (.str _) => true
       | _ => false
     else true)
  | _ => false

/-- Source `RuleEngine._validate_rule`: the three keys present, `predicate` one
of `All` / `Any`, `conditions` a list of valid conditions, `actions` a
list of valid actions.  A non-dictionary candidate raises inside the
guarded block (membership test or subscripting), which the handler turns
into `False`; `hasKey` is `false` there. -/
def validateRule (rule : JVal) : Bool :=
  hasKey rule "predicate" && hasKey rule "conditions" &&
    hasKey rule "actions" &&
  (match jGet rule "predicate" with
   | some (.str p) => p = "All" || p = "Any"
   | _ => false) &&
  (match jGet rule "conditions" with
   | some (.arr conditions) => conditions.all validateCondition
   | _ => false) &&
  (match jGet rule "actions" with
   | some (.arr actions) => actions.all validateAction
   | _ => false)

/-- Outcome of opening and JSON-parsing the rules file, the input of
`RuleEngine._load_rules`: the file may be missing (`FileNotFoundError`),
hold text that is not JSON (`json.JSONDecodeError`), or parse to a
document. -/
inductive LoadSource : Type where
  | missing : LoadSource
  | badJSON : LoadSource
  | doc : JVal → LoadSource

/-- Source `RuleEngine._load_rules`: the resulting `self.rules`.  A list
document is taken as the candidate rules, a dictionary as a singleton
candidate list, anything else is the "Invalid rules format" path; the
candidates are filtered by `_validate_rule`.  Both exception paths set
the rules to the empty list. -/
def loadRules : LoadSource → List JVal
  | .missing => []
  | .badJSON => []
  | .doc (.arr rules) => rules.filter validateRule
  | .doc (.obj kvs) => [JVal.obj kvs].filter validateRule
  | .doc _ => []

/-- Source `RuleEngine._check_string_condition`: stringify and lowercase both
operands, then dispatch on the predicate; an unknown (or non-string)
predicate compares unequal to every branch constant and falls through to
`False`. -/
def checkStringCondition (emailValue predicate value : JVal) : Bool :=
  let ev := pyLower (pyStr emailValue)
  let v := pyLower (pyStr value)
  match predicate with
  | .str p =>
    if p = "Contains" then strIn v ev
    else if p = "Does not Contain" then !(strIn v ev)
    else if p = "Equals" then ev == v
    else if p = "Does not equal" then ev != v
    else false
  | _ => false

/-- Source `RuleEngine._check_date_condition`.  `parseDate` abstracts
`dateutil.parser.parse` (`none` = raises, caught to `False`); a
non-string stored date is used unparsed and the later `datetime`
comparison raises (`false` here — JSON records never hold `datetime`
objects).  The value must split into exactly two tokens, the first an
integer, the second a day/month unit up to case; months are 30 days. -/
def checkDateCondition (now : Int) (parseDate : String → Option Int)
    (emailDate predicate value : JVal) : Bool :=
  match (match emailDate with
         | .str s => parseDate s
         | _ => none) with
  | none => false
  | some emailTime =>
    match value with
    | .str v =>
      match pySplit v with
      | [numTok, unitTok] =>
        match pyInt numTok with
        | none => false
        | some number =>
          let unit := pyLower unitTok
          match (if unit = "day" || unit = "days" then
                   some (now - number * 86400)
                 else if unit = "month" || unit = "months" then
                   some (now - number * 30 * 86400)
                 else none) with
          | none => false
          | some comparisonDate =>
            match predicate with
            | .str p =>
              if p = "Less than" then decide (emailTime < comparisonDate)
              else if p = "Greater than" then
                decide (comparisonDate < emailTime)
              else false
            | _ => false
      | _ => false
    | _ => false

/-- Source `RuleEngine.evaluate_condition`: read the three condition keys
(`KeyError` → `False`), map the field through `FIELD_MAPPING`, read the
email field with default `""`, and dispatch on date vs string field.  A
non-dictionary email raises at `email.get` (`False`); a non-string field
name finds no mapping entry. -/
def evaluateCondition (now : Int) (parseDate : String → Option Int)
    (condition email : JVal) : Bool :=
  match jGet condition "field", jGet condition "predicate",
        jGet condition "value" with
  | some fieldJ, some predicate, some value =>
    match fieldJ with
    | .str fieldName =>
      match FIELD_MAPPING.lookup fieldName with
      | some dbField =>
        match email with
        | .obj _ =>
          let emailValue := (jGet email dbField).getD (JVal.str "")
          if fieldName = "Received" then
            checkDateCondition now parseDate emailValue predicate value
          else
            checkStringCondition emailValue predicate value
        | _ => false
      | none => false
    | _ => false
  | _, _, _ => false

/-- Source `RuleEngine.evaluate_rule`: read `predicate` and `conditions`
(`KeyError` → `False`); an empty conditions list is `False` outright;
otherwise evaluate every condition and reduce with `all` / `any`
according to the combinator, `False` for any other combinator.  A
non-list `conditions` value always produces `False`: falsy values hit
the emptiness guard, iterating a string or dictionary yields strings
whose evaluation is `False` (so the reduction is `False`), and
non-iterables raise, caught by the handler. -/
def evaluateRule (now : Int) (parseDate : String → Option Int)
    (rule email : JVal) : Bool :=
  match jGet rule "predicate", jGet rule "conditions" with
  | some predicate, some (.arr conditions) =>
    if conditions.isEmpty then false
    else
      match predicate with
      | .str p =>
        if p = "All" then
          conditions.all (fun c => evaluateCondition now parseDate c email)
        else if p = "Any" then
          conditions.any (fun c => evaluateCondition now parseDate c email)
        else false
      | _ => false
  | some _, some _ => false
  | _, _ => false

/-- Source `RuleEngine.get_matching_emails`: the loop keeps, in order, exactly
the emails for which `evaluate_rule` holds. -/
def getMatchingEmails (now : Int) (parseDate : String → Option Int)
    (emails : List JVal) (rule : JVal) : List JVal :=
  emails.filter (fun email => evaluateRule now parseDate rule email)

/-- One entry of the `process_emails` result dictionary. -/
structure RuleResult : Type where
  rule : JVal
  matching_emails : List JVal
  count : Nat

/-- The loop of `RuleEngine.process_emails`, carrying the 0-based
enumeration index. -/
def processEmailsAux (now : Int) (parseDate : String → Option Int)
    (emails : List JVal) : Nat → List JVal → List (String × RuleResult)
  | _, [] => []
  | i, rule :: rest =>
    ("rule_" ++ toString (i + 1),
     { rule := rule,
       matching_emails := getMatchingEmails now parseDate emails rule,
       count := (getMatchingEmails now parseDate emails rule).length }) ::
      processEmailsAux now parseDate emails (i + 1) rest

/-- Source `RuleEngine.process_emails`: one labelled entry per loaded rule, in
load order (the result dictionary's keys are distinct, so it is
faithfully an insertion-ordered association list). -/
def processEmails (now : Int) (parseDate : String → Option Int)
    (rules emails : List JVal) : List (String × RuleResult) :=
  processEmailsAux now parseDate emails 0 rules

/-- Condition validation as the specification words it: required keys
`field`, `predicate`, `value` present; `field` a known field name; the
predicate drawn from the date predicates for the `Received` field and
from the string predicates for every other field. -/
def specConditionValid (condition : JVal) : Bool :=
  hasKey condition "field" && hasKey condition "predicate" &&
    hasKey condition "value" &&
  (match jGet condition "field" with
   | some (.str f) =>
     if f = "Received" then
       match jGet condition "predicate" with
       | some (.str p) => p = "Less than" || p = "Greater than"
       | _ => false
     else
       (f = "From" || (f = "To" || (f = "Subject" || f = "Message"))) &&
       (match jGet condition "predicate" with
        | some (.str p) =>
          p = "Contains" || (p = "Does not Contain" ||
            (p = "Equals" || p = "Does not equal"))
        | _ => false)
   | _ => false)

/-- Action validation as the specification words it: required key
`type`, drawn from the closed action set; `mark_read` additionally
requires a boolean `value`, `move_message` a string `value`,
`mark_unread` nothing further. -/
def specActionValid (action : JVal) : Bool :=
  match jGet action "type" with
  | some (.str t) =>
    if t = "mark_read" then
      match jGet action "value" with
      | some (.bool _) => true
      | _ => false
    else if t = "move_message" then
      match jGet action "value" with
      | some (.str _) => true
      | _ => false
    else t = "mark_unread"
  | _ => false

/-- Rule validation as the specification words it: the three required
keys present, `predicate` either `All` or `Any`, `conditions` a list of
spec-valid conditions, `actions` a list of spec-valid actions. -/
def specRuleValid (rule : JVal) : Bool :=
  hasKey rule "predicate" && hasKey rule "conditions" &&
    hasKey rule "actions" &&
  (match jGet rule "predicate" with
   | some (.str p) => p = "All" || p = "Any"
   | _ => false) &&
  (match jGet rule "conditions" with
   | some (.arr conditions) => conditions.all specConditionValid
   | _ => false) &&
  (match jGet rule "actions" with
   | some (.arr actions) => actions.all specActionValid
   | _ => false)

theorem validateCondition_eq_spec :
    validateCondition = specConditionValid := by
  funext c
  unfold validateCondition specConditionValid
  cases hf : jGet c "field" with
  | none => rfl
  | some fv =>
    cases fv with
    | str f =>
      by_cases h1 : f = "From" <;> by_cases h2 : f = "To" <;>
        by_cases h3 : f = "Subject" <;> by_cases h4 : f = "Message" <;>
        by_cases h5 : f = "Received" <;>
        simp_all [FIELD_MAPPING, DATE_PREDICATES, STRING_PREDICATES,
          List.lookup, List.contains, List.elem_cons, beq_iff_eq,
          beq_eq_decide]
    | null => rfl
    | bool b => rfl
    | num n => rfl
    | arr xs => rfl
    | obj kvs => rfl

theorem validateAction_eq_spec : validateAction = specActionValid := by
  funext a
  unfold validateAction specActionValid
  cases ht : jGet a "type" with
  | none => rfl
  | some tv =>
    cases tv with
    | str t =>
      by_cases h1 : t = "mark_unread" <;> by_cases h2 : t = "mark_read" <;>
        by_cases h3 : t = "move_message" <;>
        simp_all [ACTIONS, List.contains]
    | null => rfl
    | bool b => rfl
    | num n => rfl
    | arr xs => rfl
    | obj kvs => rfl

theorem validateRule_eq_spec : validateRule = specRuleValid := by
  funext r
  unfold validateRule specRuleValid
  rw [validateCondition_eq_spec, validateAction_eq_spec]

theorem char_toNat_ofNat (m : Nat) (h : m.isValidChar) :
    (Char.ofNat m).toNat = m := by
  rw [Char.ofNat, dif_pos h]
  rfl

theorem char_toLower_idem (c : Char) : c.toLower.toLower = c.toLower := by
  unfold Char.toLower
  by_cases h : c.toNat ≥ 65 ∧ c.toNat ≤ 90
  · rw [if_pos h]
    have hv : Nat.isValidChar (c.toNat + 32) := Or.inl (by omega)
    have ht : (Char.ofNat (c.toNat + 32)).toNat = c.toNat + 32 :=
      char_toNat_ofNat _ hv
    rw [if_neg (by rw [ht]; omega)]
  · rw [if_neg h, if_neg h]

theorem pyLower_idem (s : String) : pyLower (pyLower s) = pyLower s := by
  simp only [pyLower, List.map_map]
  rw [show Char.toLower ∘ Char.toLower = Char.toLower from
        funext char_toLower_idem]

/-- C1.  A candidate rule of the loaded document is kept in the
engine's rule list exactly when it passes the structural validation the
specification describes (three required keys, `All`/`Any` combinator,
lists of spec-valid conditions and actions); valid rules are kept in
document order and unmodified, invalid ones are dropped whole.  This
holds for a list-shaped document and for the single-object document
form. -/
theorem c1_loaded_rules_are_spec_valid :
    (∀ rules : List JVal,
      loadRules (.doc (.arr rules)) = rules.filter specRuleValid)
    ∧ ∀ kvs : List (String × JVal),
        loadRules (.doc (.obj kvs)) =
          if specRuleValid (.obj kvs) then [JVal.obj kvs] else [] := by
  constructor
  · intro rules
    show rules.filter validateRule = _
    rw [validateRule_eq_spec]
  · intro kvs
    show [JVal.obj kvs].filter validateRule = _
    rw [validateRule_eq_spec]
    cases h : specRuleValid (.obj kvs) <;> simp [List.filter, h]

/-- C2.  Function `evaluate_rule` is `false` on an empty conditions list for
every combinator (in particular for both `All` and `Any`); on a
non-empty list it is the AND of the condition evaluations for `All`,
the OR for `Any`, and `false` for every other combinator value. -/
theorem c2_evaluate_rule_combinators :
    ∀ (now : Int) (parseDate : String → Option Int) (rule email p : JVal)
      (cs : List JVal),
      jGet rule "predicate" = some p →
      jGet rule "conditions" = some (.arr cs) →
      (cs = [] → evaluateRule now parseDate rule email = false)
      ∧ (cs ≠ [] →
          evaluateRule now parseDate rule email =
            match p with
            | .str c =>
              if c = "All" then
                cs.all (fun cond => evaluateCondition now parseDate cond email)
              else if c = "Any" then
                cs.any (fun cond => evaluateCondition now parseDate cond email)
              else false
            | _ => false) := by
  intro now pd rule email p cs hp hc
  unfold evaluateRule
  rw [hp, hc]
  constructor
  · intro h
    subst h
    simp
  · intro h
    cases cs with
    | nil => exact absurd rfl h
    | cons a as => simp [List.isEmpty]

theorem c2_witness :
    evaluateRule 0 (fun _ => none)
      (.obj [("predicate", JVal.str "Any"), ("conditions", JVal.arr [])])
      (.obj []) = false :=
  (c2_evaluate_rule_combinators 0 (fun _ => none)
    (.obj [("predicate", JVal.str "Any"), ("conditions", JVal.arr [])])
    (.obj []) (JVal.str "Any") [] rfl rfl).1 rfl

/-- C4.  Loading fails soft: a missing rules file, a file that is
not valid JSON, and a document whose top level is neither a rule object
nor a list both produce the empty rule list (the model is a total
function, so no exception escapes). -/
theorem c4_load_fails_soft :
    loadRules .missing = [] ∧ loadRules .badJSON = [] ∧
    ∀ v : JVal, (∀ kvs, v ≠ .obj kvs) → (∀ xs, v ≠ .arr xs) →
      loadRules (.doc v) = [] := by
  refine ⟨rfl, rfl, ?_⟩
  intro v hobj harr
  cases v with
  | null => rfl
  | bool b => rfl
  | num n => rfl
  | str s => rfl
  | arr xs => exact absurd rfl (harr xs)
  | obj kvs => exact absurd rfl (hobj kvs)

theorem c4_witness : loadRules (.doc (.num 3)) = [] :=
  c4_load_fails_soft.2.2 (.num 3) (fun _ h => JVal.noConfusion h)
    (fun _ h => JVal.noConfusion h)

/-- C5.  On every (field value, condition value) pair, `Contains`
and `Does not Contain` are exact Boolean negations of each other, and so
are `Equals` and `Does not equal`. -/
theorem c5_negation_pairs :
    ∀ emailValue value : JVal,
      checkStringCondition emailValue (.str "Contains") value
        = !checkStringCondition emailValue (.str "Does not Contain") value
      ∧ checkStringCondition emailValue (.str "Equals") value
        = !checkStringCondition emailValue (.str "Does not equal") value := by
  intro ev v
  constructor <;> simp [checkStringCondition, bne]

/-- C6.  String-condition evaluation is case-insensitive: replacing
the field text or the condition value by any mixed-case variant (same
`lower` image) gives the same result, and the result coincides with the
evaluation of the lowercase canonical forms. -/
theorem c6_case_insensitivity :
    ∀ (s₁ s₂ v₁ v₂ : String) (predicate : JVal),
      pyLower s₁ = pyLower s₂ → pyLower v₁ = pyLower v₂ →
      checkStringCondition (.str s₁) predicate (.str v₁)
        = checkStringCondition (.str s₂) predicate (.str v₂)
      ∧ checkStringCondition (.str s₁) predicate (.str v₁)
        = checkStringCondition (.str (pyLower s₁)) predicate
            (.str (pyLower v₁)) := by
  intro s₁ s₂ v₁ v₂ predicate h1 h2
  constructor
  · simp only [checkStringCondition, pyStr, h1, h2]
  · simp only [checkStringCondition, pyStr, pyLower_idem]

theorem c6_witness :
    (pyLower "AbC" = pyLower "aBc" ∧ pyLower "B" = pyLower "b") ∧
    checkStringCondition (.str "AbC") (.str "Contains") (.str "B")
      = checkStringCondition (.str "aBc") (.str "Contains") (.str "b") :=
  ⟨⟨by decide, by decide⟩,
   (c6_case_insensitivity "AbC" "aBc" "B" "b" (.str "Contains")
     (by decide) (by decide)).1⟩

/-- C3.  For a `Received` condition over a record whose stored date
parses to the timestamp `t`: a value that does not split into exactly
two tokens, or whose first token is not an integer, or whose unit is
none of day/days/month/months (up to case), evaluates to `false`;
otherwise the threshold is `now` minus `n` days (`n * 30` days for the
month unit) and `Less than` holds iff `t` is strictly earlier than the
threshold while `Greater than` holds iff `t` is strictly later. -/
theorem c3_date_condition :
    ∀ (now t : Int) (parseDate : String → Option Int) (s v : String),
      parseDate s = some t →
      ((pySplit v).length ≠ 2 →
        ∀ predicate, checkDateCondition now parseDate (.str s) predicate
          (.str v) = false)
      ∧ (∀ numTok unitTok, pySplit v = [numTok, unitTok] →
          pyInt numTok = none →
          ∀ predicate, checkDateCondition now parseDate (.str s) predicate
            (.str v) = false)
      ∧ ∀ numTok unitTok n, pySplit v = [numTok, unitTok] →
          pyInt numTok = some n →
          ((pyLower unitTok ≠ "day" ∧ pyLower unitTok ≠ "days" ∧
            pyLower unitTok ≠ "month" ∧ pyLower unitTok ≠ "months" →
            ∀ predicate, checkDateCondition now parseDate (.str s) predicate
              (.str v) = false)
           ∧ (pyLower unitTok = "day" ∨ pyLower unitTok = "days" →
               checkDateCondition now parseDate (.str s) (.str "Less than")
                 (.str v) = decide (t < now - n * 86400)
               ∧ checkDateCondition now parseDate (.str s)
                   (.str "Greater than") (.str v)
                 = decide (now - n * 86400 < t))
           ∧ (pyLower unitTok = "month" ∨ pyLower unitTok = "months" →
               checkDateCondition now parseDate (.str s) (.str "Less than")
                 (.str v) = decide (t < now - n * 30 * 86400)
               ∧ checkDateCondition now parseDate (.str s)
                   (.str "Greater than") (.str v)
                 = decide (now - n * 30 * 86400 < t))) := by
  intro now t parseDate s v hpd
  refine ⟨?_, ?_, ?_⟩
  · intro hlen predicate
    simp only [checkDateCondition, hpd]
    rcases hs : pySplit v with _ | ⟨a, _ | ⟨b, _ | ⟨c, l⟩⟩⟩ <;>
      simp_all [hs]
  · intro numTok unitTok hs hn predicate
    simp only [checkDateCondition, hpd, hs, hn]
  · intro numTok unitTok n hs hn
    refine ⟨?_, ?_, ?_⟩
    · intro ⟨h1, h2, h3, h4⟩ predicate
      simp only [checkDateCondition, hpd, hs, hn]
      simp [h1, h2, h3, h4]
    · intro hu
      simp only [checkDateCondition, hpd, hs, hn]
      rcases hu with h | h <;> simp [h]
    · intro hu
      simp only [checkDateCondition, hpd, hs, hn]
      have hd : pyLower unitTok ≠ "day" ∧ pyLower unitTok ≠ "days" := by
        rcases hu with h | h <;> rw [h] <;> exact ⟨by decide, by decide⟩
      rcases hu with h | h <;> simp [h, hd.1, hd.2]

theorem c3_witness :
    checkDateCondition 1000000
      (fun s => if s = "D" then some (0 : Int) else none)
      (.str "D") (.str "Less than") (.str "2 days")
      = decide ((0 : Int) < 1000000 - 2 * 86400) :=
  (((c3_date_condition 1000000 0
      (fun s => if s = "D" then some (0 : Int) else none) "D" "2 days"
      (by simp)).2.2 "2" "days" 2 (by decide) (by decide)).2.1
    (Or.inr (by decide))).1

theorem processEmailsAux_length (now : Int) (parseDate : String → Option Int)
    (emails : List JVal) :
    ∀ (rs : List JVal) (i : Nat),
      (processEmailsAux now parseDate emails i rs).length = rs.length := by
  intro rs
  induction rs with
  | nil => intro i; rfl
  | cons a as ih =>
    intro i
    simp [processEmailsAux, ih]

theorem processEmailsAux_getElem (now : Int) (parseDate : String → Option Int)
    (emails : List JVal) :
    ∀ (rs : List JVal) (i j : Nat) (r : JVal), rs[j]? = some r →
      (processEmailsAux now parseDate emails i rs)[j]? =
        some ("rule_" ++ toString (i + j + 1),
          { rule := r,
            matching_emails := getMatchingEmails now parseDate emails r,
            count := (getMatchingEmails now parseDate emails r).length }) := by
  intro rs
  induction rs with
  | nil => intro i j r h; simp at h
  | cons a as ih =>
    intro i j r h
    cases j with
    | zero =>
      simp at h
      subst h
      simp [processEmailsAux]
    | succ j =>
      simp only [processEmailsAux, List.getElem?_cons_succ] at h ⊢
      rw [ih (i + 1) j r h]
      have : i + 1 + j = i + (j + 1) := by omega
      rw [this]

/-- C7.  Function `process_emails` produces exactly one entry per loaded
rule, keyed `rule_<1-based position>` in load order; each entry carries
the order-preserving sublist of the input records matching that rule and
its length as `count`. -/
theorem c7_process_emails :
    ∀ (now : Int) (parseDate : String → Option Int)
      (rules emails : List JVal),
      (processEmails now parseDate rules emails).length = rules.length
      ∧ ∀ (i : Nat) (r : JVal), rules[i]? = some r →
          (processEmails now parseDate rules emails)[i]? =
            some ("rule_" ++ toString (i + 1),
              { rule := r,
                matching_emails :=
                  emails.filter (fun e => evaluateRule now parseDate r e),
                count := (emails.filter
                  (fun e => evaluateRule now parseDate r e)).length }) := by
  intro now parseDate rules emails
  constructor
  · exact processEmailsAux_length now parseDate emails rules 0
  · intro i r h
    have := processEmailsAux_getElem now parseDate emails rules 0 i r h
    simpa [getMatchingEmails] using this

theorem c7_witness :
    (processEmails 0 (fun _ => none)
      [.obj [("predicate", JVal.str "Any"),
             ("conditions", JVal.arr
               [.obj [("field", JVal.str "Subject"),
                      ("predicate", JVal.str "Contains"),
                      ("value", JVal.str "hi")]]),
             ("actions", JVal.arr [])]]
      [.obj [("subject", JVal.str "say Hi")],
       .obj [("subject", JVal.str "nope")]])[0]? =
      some ("rule_1",
        { rule := .obj [("predicate", JVal.str "Any"),
             ("conditions", JVal.arr
               [.obj [("field", JVal.str "Subject"),
                      ("predicate", JVal.str "Contains"),
                      ("value", JVal.str "hi")]]),
             ("actions", JVal.arr [])],
          matching_emails := [.obj [("subject", JVal.str "say Hi")]],
          count := 1 }) := by
  have h := (c7_process_emails 0 (fun _ => none)
    [.obj [("predicate", JVal.str "Any"),
           ("conditions", JVal.arr
             [.obj [("field", JVal.str "Subject"),
                    ("predicate", JVal.str "Contains"),
                    ("value", JVal.str "hi")]]),
           ("actions", JVal.arr [])]]
    [.obj [("subject", JVal.str "say Hi")],
     .obj [("subject", JVal.str "nope")]]).2 0 _ rfl
  rw [h]
  rfl

theorem jGet_cons_ne (k key : String) (v : JVal)
    (kvs : List (String × JVal)) (h : key ≠ k) :
    jGet (.obj ((k, v) :: kvs)) key = jGet (.obj kvs) key := by
  simp [jGet, List.lookup, beq_eq_decide, h]

theorem processEmailsAux_rules (now : Int) (parseDate : String → Option Int)
    (emails : List JVal) :
    ∀ (rs : List JVal) (i : Nat),
      (processEmailsAux now parseDate emails i rs).map
        (fun entry => entry.2.rule) = rs := by
  intro rs
  induction rs with
  | nil => intro i; rfl
  | cons a as ih => intro i; simp [processEmailsAux, ih]

/-- C9.  Validation ignores unrecognized keys: adding a binding for
any key outside the inspected set changes no validation verdict for
rules, conditions or actions; and `process_emails` returns each accepted
rule object verbatim as the `rule` field of its entry. -/
theorem c9_extra_keys_tolerated_and_rules_verbatim :
    (∀ (k : String) (v : JVal) (kvs : List (String × JVal)),
      k ≠ "predicate" → k ≠ "conditions" → k ≠ "actions" →
      validateRule (.obj ((k, v) :: kvs)) = validateRule (.obj kvs))
    ∧ (∀ (k : String) (v : JVal) (kvs : List (String × JVal)),
        k ≠ "field" → k ≠ "predicate" → k ≠ "value" →
        validateCondition (.obj ((k, v) :: kvs))
          = validateCondition (.obj kvs))
    ∧ (∀ (k : String) (v : JVal) (kvs : List (String × JVal)),
        k ≠ "type" → k ≠ "value" →
        validateAction (.obj ((k, v) :: kvs)) = validateAction (.obj kvs))
    ∧ ∀ (now : Int) (parseDate : String → Option Int)
        (rules emails : List JVal),
        (processEmails now parseDate rules emails).map
          (fun entry => entry.2.rule) = rules := by
  refine ⟨?_, ?_, ?_, ?_⟩
  · intro k v kvs h1 h2 h3
    unfold validateRule
    rw [jGet_cons_ne k "predicate" v kvs (Ne.symm h1),
        jGet_cons_ne k "conditions" v kvs (Ne.symm h2),
        jGet_cons_ne k "actions" v kvs (Ne.symm h3)]
    unfold hasKey
    rw [jGet_cons_ne k "predicate" v kvs (Ne.symm h1),
        jGet_cons_ne k "conditions" v kvs (Ne.symm h2),
        jGet_cons_ne k "actions" v kvs (Ne.symm h3)]
  · intro k v kvs h1 h2 h3
    unfold validateCondition
    rw [jGet_cons_ne k "field" v kvs (Ne.symm h1),
        jGet_cons_ne k "predicate" v kvs (Ne.symm h2)]
    unfold hasKey
    rw [jGet_cons_ne k "field" v kvs (Ne.symm h1),
        jGet_cons_ne k "predicate" v kvs (Ne.symm h2),
        jGet_cons_ne k "value" v kvs (Ne.symm h3)]
  · intro k v kvs h1 h2
    unfold validateAction
    rw [jGet_cons_ne k "type" v kvs (Ne.symm h1),
        jGet_cons_ne k "value" v kvs (Ne.symm h2)]
  · intro now parseDate rules emails
    exact processEmailsAux_rules now parseDate emails rules 0

theorem c9_witness :
    validateRule (.obj [("note", JVal.null),
      ("predicate", JVal.str "All"),
      ("conditions", JVal.arr []),
      ("actions", JVal.arr [])])
      = validateRule (.obj [("predicate", JVal.str "All"),
          ("conditions", JVal.arr []),
          ("actions", JVal.arr [])]) :=
  c9_extra_keys_tolerated_and_rules_verbatim.1 "note" JVal.null
    [("predicate", JVal.str "All"), ("conditions", JVal.arr []),
     ("actions", JVal.arr [])]
    (by decide) (by decide) (by decide)

/-- C10.  String conditions stringify both operands before
lowercasing and comparing: evaluating on any field/condition values
equals evaluating on their Python textual forms; a field holding JSON
`null` compares equal to the text `none`; and at `evaluate_condition`
level a record field that is present (with any value) is passed through
while only an absent field defaults to the empty string. -/
theorem c10_stringify_before_compare :
    (∀ fieldVal predicate value : JVal,
      checkStringCondition fieldVal predicate value
        = checkStringCondition (.str (pyStr fieldVal)) predicate
            (.str (pyStr value)))
    ∧ checkStringCondition JVal.null (.str "Equals") (.str "none") = true
    ∧ ∀ (now : Int) (parseDate : String → Option Int) (cond : JVal)
        (evs : List (String × JVal)) (fieldName dbField : String)
        (predicate value : JVal),
        jGet cond "field" = some (.str fieldName) →
        jGet cond "predicate" = some predicate →
        jGet cond "value" = some value →
        FIELD_MAPPING.lookup fieldName = some dbField →
        fieldName ≠ "Received" →
        ((List.lookup dbField evs = none →
           evaluateCondition now parseDate cond (.obj evs)
             = checkStringCondition (.str "") predicate value)
         ∧ ∀ x, List.lookup dbField evs = some x →
             evaluateCondition now parseDate cond (.obj evs)
               = checkStringCondition x predicate value) := by
  refine ⟨?_, by decide, ?_⟩
  · intro fieldVal predicate value
    rfl
  · intro now parseDate cond evs fieldName dbField predicate value
      hf hp hv hm hr
    constructor
    · intro habs
      simp only [evaluateCondition, hf, hp, hv, hm]
      rw [if_neg hr]
      simp only [jGet, habs, Option.getD_none]
    · intro x hpres
      simp only [evaluateCondition, hf, hp, hv, hm]
      rw [if_neg hr]
      simp only [jGet, hpres, Option.getD_some]

theorem c10_witness :
    evaluateCondition 0 (fun _ => none)
      (.obj [("field", JVal.str "Subject"),
             ("predicate", JVal.str "Equals"),
             ("value", JVal.str "none")])
      (.obj [("subject", JVal.null)]) = true := by
  have h := (c10_stringify_before_compare.2.2 0 (fun _ => none)
    (.obj [("field", JVal.str "Subject"),
           ("predicate", JVal.str "Equals"),
           ("value", JVal.str "none")])
    [("subject", JVal.null)] "Subject" "subject"
    (JVal.str "Equals") (JVal.str "none")
    rfl rfl rfl rfl (by decide)).2 JVal.null rfl
  rw [h]
  decide
